import Mathlib

/-!
Verification of the event-routing core of spacefold (src/main.rs).

The Rust source is shallowly embedded: machine integers become `Nat`/`Int`
(the casts that occur are lossless), `VecDeque` becomes `List` (front =
oldest), `AttributeSet` membership becomes list membership, fallible
operations return `Except`/`Option`, and the stateful main loop becomes
explicit state passing over a `LoopState`.
-/

/-- Embedding of `Keystroke` (src/main.rs lines 11-15): a key code (`u16`,
embedded as `Nat`) and a raw event value (`i32`, embedded as `Int`).
Equality is structural, as with the derived `PartialEq`. -/
structure Keystroke where
  key : Nat
  value : Int
deriving DecidableEq, Repr

/-- Embedding of `Mode` (lines 17-21). -/
inductive Mode where
  | Mouse
  | Manipulator
deriving DecidableEq, Repr

/-- Category of an input event, abstracting `evdev::InputEventKind` as used by
the source: `Key`, `RelAxis`, and all remaining categories (synchronization,
absolute axes, misc, ...) which every match in the source collapses into a
single `_` arm; the `Nat` tag keeps those remaining categories distinguishable
from one another. -/
inductive EventType where
  | key
  | relAxis
  | other (tag : Nat)
deriving DecidableEq, Repr

/-- Embedding of an `evdev::InputEvent` as consumed by the source: its kind
(`event.kind()`), its `u16` code (`event.code()`, embedded as `Nat`) and its
`i32` value (`event.value()`, embedded as `Int`). -/
structure InputEvent where
  type : EventType
  code : Nat
  value : Int
deriving DecidableEq, Repr

/-- Capability sets of one virtual device: the `keys` and `axes` fields of
`VirtualDeviceConfig` (lines 46-50), with `AttributeSet` membership embedded
as list membership. -/
structure Caps where
  keys : List Nat
  axes : List Nat
deriving DecidableEq, Repr

/-- Embedding of `should_emit` (lines 166-175). -/
def should_emit (device : Caps) (e : InputEvent) (mode : Mode) : Bool :=
  if mode = Mode.Manipulator then true
  else
    match e.type with
    | EventType.key => decide (e.code ∈ device.keys)
    | EventType.relAxis => decide (e.code ∈ device.axes)
    | EventType.other _ => true

/-- Embedding of `should_toggle` (lines 177-187): a length test followed by a
pairwise comparison of the zipped entries. -/
def should_toggle (history : List Keystroke) (sequence : List Keystroke) : Bool :=
  if history.length ≠ sequence.length then false
  else (history.zip sequence).all fun p => decide (p.1 = p.2)

/-- The `Keystroke` built from an event in `save_stroke` (lines 196-199):
`Keystroke { key: event.code(), value: event.value() }`. -/
def keystrokeOf (e : InputEvent) : Keystroke := ⟨e.code, e.value⟩

/-- Embedding of `save_stroke` (lines 189-204). Note the order taken from the
source: the capacity check and the `pop_front` happen before the event's kind
is examined. `pop_front` on a `VecDeque` is `List.tail` here (a no-op on the
empty buffer, as in the source where popping an empty deque yields `None`). -/
def save_stroke (history : List Keystroke) (e : InputEvent) (max_len : Nat) :
    List Keystroke × Bool :=
  let history := if history.length = max_len then history.tail else history
  match e.type with
  | EventType.key => (history ++ [keystrokeOf e], true)
  | _ => (history, false)

/-- The two virtual outputs. -/
inductive Output where
  | manipulator
  | mouse
deriving DecidableEq, Repr

/-- The `match mode` at lines 225-228 that selects the output device for a
batch. -/
def outputFor : Mode → Output
  | Mode.Manipulator => Output.manipulator
  | Mode.Mouse => Output.mouse

/-- Capability lookup for an output, mirroring that each
`VirtualDeviceWrapper` carries its `VirtualDeviceConfig` (lines 91-94). -/
def capsFor (manip mouse : Caps) : Output → Caps
  | Output.manipulator => manip
  | Output.mouse => mouse

/-- The `match mode` at lines 242-251: a toggle always flips to the other
mode. (Named `flipMode` here because `flip` already exists in the library.) -/
def flipMode : Mode → Mode
  | Mode.Mouse => Mode.Manipulator
  | Mode.Manipulator => Mode.Mouse

/-- The mutable state of the main loop: the current mode (line 215) and the
history buffer (line 219). -/
structure LoopState where
  mode : Mode
  history : List Keystroke
deriving DecidableEq, Repr

/-- One iteration of the inner `for event in events` loop (lines 232-253),
with `device`/`out` the output chosen at the start of the batch: first
`save_stroke`, then the `should_emit` decision and the emission, then the
toggle check on the updated history. Returns the updated state and the
emission target (if any). `seq.length` is `history_max_len` (line 218). -/
def processEvent (device : Caps) (seq : List Keystroke) (out : Output)
    (s : LoopState) (e : InputEvent) : LoopState × Option Output :=
  let p := save_stroke s.history e seq.length
  let em := if should_emit device e s.mode then some out else none
  let m := if p.2 && should_toggle p.1 seq then flipMode s.mode else s.mode
  (⟨m, p.1⟩, em)

/-- State evolution of one loop iteration. The emission never feeds back into
the state, so this is exactly the state component of `processEvent` (proved
below as `processEvent_fst`). -/
def stepState (seq : List Keystroke) (s : LoopState) (e : InputEvent) : LoopState :=
  if (save_stroke s.history e seq.length).2
      && should_toggle (save_stroke s.history e seq.length).1 seq
  then ⟨flipMode s.mode, (save_stroke s.history e seq.length).1⟩
  else ⟨s.mode, (save_stroke s.history e seq.length).1⟩

/-- The mode/history state after feeding `es` event by event to the loop,
starting from mode `m0` and the empty history (lines 215-219 initialize
`mode = config.default_mode` and an empty `history`). -/
def runState (seq : List Keystroke) (m0 : Mode) (es : List InputEvent) : LoopState :=
  es.foldl (stepState seq) ⟨m0, []⟩

/-- The inner `for` loop over one fetched batch, with the output `out` fixed
for the whole batch. Returns, per event in order, the event, the mode at the
start of that event's processing, and its emission, together with the final
state. -/
def runBatchAux (device : Caps) (seq : List Keystroke) (out : Output) :
    LoopState → List InputEvent → List (InputEvent × Mode × Option Output) × LoopState
  | s, [] => ([], s)
  | s, e :: rest =>
    let r := processEvent device seq out s e
    let t := runBatchAux device seq out r.1 rest
    ((e, s.mode, r.2) :: t.1, t.2)

/-- One iteration of the outer `loop` (lines 224-254): the output device is
picked from the mode current at the start of the batch, and the whole fetched
batch is processed with that device fixed. -/
def runBatch (manip mouse : Caps) (seq : List Keystroke)
    (s : LoopState) (events : List InputEvent) :
    List (InputEvent × Mode × Option Output) × LoopState :=
  runBatchAux (capsFor manip mouse (outputFor s.mode)) seq (outputFor s.mode) s events

/-- The whole main loop over a list of fetched batches. -/
def runLoop (manip mouse : Caps) (seq : List Keystroke) :
    LoopState → List (List InputEvent) →
      List (InputEvent × Mode × Option Output) × LoopState
  | s, [] => ([], s)
  | s, b :: bs =>
    let r := runBatch manip mouse seq s b
    let t := runLoop manip mouse seq r.2 bs
    (r.1 ++ t.1, t.2)

/-- The Keystrokes of the key-category events of `es`, in order. -/
def keyEvents (es : List InputEvent) : List Keystroke :=
  es.filterMap fun e => if e.type = EventType.key then some (keystrokeOf e) else none

/-- The last `n` elements of `l` (all of `l` when `l` is shorter than `n`). -/
def lastN (n : Nat) (l : List Keystroke) : List Keystroke :=
  l.drop (l.length - n)

/-- The routing property the spec claims of every processed event: an emitted
event goes to the output corresponding to the mode in effect at the start of
that event's processing. -/
def emittedToActive (t : InputEvent × Mode × Option Output) : Bool :=
  match t.2.2 with
  | some o => decide (o = outputFor t.2.1)
  | none => true

/-- Embedding of the `Config` struct (lines 23-32). `u16` values in
`toggle_sequence` are embedded as `Nat`. The two name-decorating string
fields of the source are kept here under slightly altered field names. -/
structure Config where
  target_name : String
  virtual_manipulator_name_pre : String
  virtual_mouse_name_pre : String
  virtual_mouse_keys : List String
  virtual_mouse_axes : List String
  toggle_sequence : List (String × Nat)
  default_mode : Mode

/-- The error message built at lines 69 and 80 of the source. -/
def errMsg (item : String) : String :=
  "event \"" ++ item ++ "\" doesn\x27t exist"

/-- Embedding of `VirtualDeviceConfig::prepare_keys` (lines 63-73), with the
platform symbolic-name table `Key::from_str` abstracted as `keyCode`;
`AttributeSet` insertion is embedded as collecting the codes in order. The
first unknown name aborts with the descriptive error message. -/
def prepare_keys (keyCode : String → Option Nat) :
    List String → Except String (List Nat)
  | [] => Except.ok []
  | item :: rest =>
    match keyCode item with
    | some c => (prepare_keys keyCode rest).map fun l => c :: l
    | none => Except.error (errMsg item)

/-- Embedding of `VirtualDeviceConfig::prepare_axes` (lines 74-84), the exact
analogue of `prepare_keys` over the axis-name table (the source keeps two
copies because of a library limitation, see its comment at lines 60-62). -/
def prepare_axes (axisCode : String → Option Nat) :
    List String → Except String (List Nat)
  | [] => Except.ok []
  | item :: rest =>
    match axisCode item with
    | some c => (prepare_axes axisCode rest).map fun l => c :: l
    | none => Except.error (errMsg item)

/-- Embedding of `Config::toggle_sequence_to_keystrokes` (lines 34-44). The
source calls `Key::from_str(k).unwrap()`, which panics on an unknown name:
the panic is embedded as `none`. The cast `*v as i32` is lossless on `u16`,
hence `Int.ofNat`. -/
def toggle_sequence_to_keystrokes (keyCode : String → Option Nat) :
    List (String × Nat) → Option (List Keystroke)
  | [] => some []
  | (k, v) :: rest =>
    match keyCode k with
    | some c =>
      (toggle_sequence_to_keystrokes keyCode rest).map fun l => ⟨c, Int.ofNat v⟩ :: l
    | none => none

/-- Externally visible startup effects of `main` (lines 206-224) and `setup`
(lines 124-164). -/
inductive StartupEffect where
  | findDevice
  | grabDevice
  | createManipulator
  | createMouse
  | configError (msg : String)
  | panicUnwrap
  | enterLoop
deriving DecidableEq, Repr

/-- Startup of `main` up to entering the event loop, assuming the YAML parse
and every external device operation succeed, so that only the configuration
checks can fail. Order, taken from the source: `find_device` (line 209); in
`setup`: `find_device` again (127), `grab` (129), creation of the manipulator
output (144), `prepare_keys` and `prepare_axes` for the mouse output
(146-150) which may fail with a config error, creation of the mouse output
(151); back in `main`, `toggle_sequence_to_keystrokes` (217) whose `unwrap`
panics on an unknown name; then the event loop is entered (224). -/
def startupTrace (keyCode axisCode : String → Option Nat) (cfg : Config) :
    List StartupEffect :=
  [StartupEffect.findDevice, StartupEffect.findDevice, StartupEffect.grabDevice,
    StartupEffect.createManipulator] ++
  match prepare_keys keyCode cfg.virtual_mouse_keys with
  | Except.error msg => [StartupEffect.configError msg]
  | Except.ok _ =>
    match prepare_axes axisCode cfg.virtual_mouse_axes with
    | Except.error msg => [StartupEffect.configError msg]
    | Except.ok _ =>
      StartupEffect.createMouse ::
        match toggle_sequence_to_keystrokes keyCode cfg.toggle_sequence with
        | none => [StartupEffect.panicUnwrap]
        | some _ => [StartupEffect.enterLoop]

/-- Concrete symbolic-name table used by the concrete instances below: it
recognizes only the key name KEY_A (code 30, as in the platform's table). -/
def kcA : String → Option Nat := fun s => if s = "KEY_A" then some 30 else none

/-- Concrete axis-name table recognizing nothing. -/
def acNone : String → Option Nat := fun _ => none

/-- Concrete configuration whose `virtual_mouse_keys` contains an unknown
symbolic name. -/
def cfgBadKey : Config :=
  ⟨"kbd", "virt manipulator", "virt mouse", ["KEY_FOO"], [], [("KEY_A", 1)], Mode.Mouse⟩

section Helpers

lemma should_toggle_cons (a b : Keystroke) (t u : List Keystroke) :
    should_toggle (a :: t) (b :: u) = (decide (a = b) && should_toggle t u) := by
  by_cases hl : t.length = u.length
  · simp [should_toggle, hl]
  · simp [should_toggle, hl]

lemma should_toggle_iff_eq (h s : List Keystroke) :
    should_toggle h s = true ↔ h = s := by
  induction h generalizing s with
  | nil => cases s <;> simp [should_toggle]
  | cons a t ih =>
    cases s with
    | nil => simp [should_toggle]
    | cons b u => simp [should_toggle_cons, ih]

lemma flipMode_ne (m : Mode) : flipMode m ≠ m := by cases m <;> simp [flipMode]

lemma save_stroke_key (h : List Keystroke) (e : InputEvent) (n : Nat)
    (he : e.type = EventType.key) :
    save_stroke h e n = ((if h.length = n then h.tail else h) ++ [keystrokeOf e], true) := by
  unfold save_stroke
  rw [he]

lemma save_stroke_not_key (h : List Keystroke) (e : InputEvent) (n : Nat)
    (he : e.type ≠ EventType.key) :
    save_stroke h e n = ((if h.length = n then h.tail else h), false) := by
  unfold save_stroke
  cases het : e.type with
  | key => exact absurd het he
  | relAxis => simp
  | other tag => simp

lemma save_stroke_key_fst (h : List Keystroke) (e : InputEvent) (n : Nat)
    (he : e.type = EventType.key) :
    (save_stroke h e n).1 = (if h.length = n then h.tail else h) ++ [keystrokeOf e] := by
  rw [save_stroke_key h e n he]

lemma save_stroke_key_snd (h : List Keystroke) (e : InputEvent) (n : Nat)
    (he : e.type = EventType.key) : (save_stroke h e n).2 = true := by
  rw [save_stroke_key h e n he]

lemma save_stroke_not_key_fst (h : List Keystroke) (e : InputEvent) (n : Nat)
    (he : e.type ≠ EventType.key) :
    (save_stroke h e n).1 = (if h.length = n then h.tail else h) := by
  rw [save_stroke_not_key h e n he]

lemma save_stroke_not_key_snd (h : List Keystroke) (e : InputEvent) (n : Nat)
    (he : e.type ≠ EventType.key) : (save_stroke h e n).2 = false := by
  rw [save_stroke_not_key h e n he]

lemma keyEvents_append (es fs : List InputEvent) :
    keyEvents (es ++ fs) = keyEvents es ++ keyEvents fs := by
  simp [keyEvents, List.filterMap_append]

lemma keyEvents_singleton_key (e : InputEvent) (he : e.type = EventType.key) :
    keyEvents [e] = [keystrokeOf e] := by
  simp [keyEvents, he]

lemma keyEvents_singleton_not_key (e : InputEvent) (he : e.type ≠ EventType.key) :
    keyEvents [e] = [] := by
  simp [keyEvents, he]

lemma runState_append (seq : List Keystroke) (m0 : Mode) (es fs : List InputEvent) :
    runState seq m0 (es ++ fs) = fs.foldl (stepState seq) (runState seq m0 es) := by
  simp [runState, List.foldl_append]

lemma runState_concat (seq : List Keystroke) (m0 : Mode) (es : List InputEvent)
    (e : InputEvent) :
    runState seq m0 (es ++ [e]) = stepState seq (runState seq m0 es) e := by
  simp [runState_append]

lemma stepState_history (seq : List Keystroke) (s : LoopState) (e : InputEvent) :
    (stepState seq s e).history = (save_stroke s.history e seq.length).1 := by
  unfold stepState
  split <;> rfl

lemma stepState_mode_ne_iff (seq : List Keystroke) (s : LoopState) (e : InputEvent) :
    (stepState seq s e).mode ≠ s.mode ↔
      ((save_stroke s.history e seq.length).2
        && should_toggle (save_stroke s.history e seq.length).1 seq) = true := by
  unfold stepState
  split
  · rename_i hc
    simp only [hc, iff_true]
    exact flipMode_ne s.mode
  · rename_i hc
    simp only [Bool.not_eq_true] at hc
    simp [hc]

lemma processEvent_fst (device : Caps) (seq : List Keystroke) (out : Output)
    (s : LoopState) (e : InputEvent) :
    (processEvent device seq out s e).1 = stepState seq s e := by
  cases hc : ((save_stroke s.history e seq.length).2
      && should_toggle (save_stroke s.history e seq.length).1 seq) <;>
    simp [processEvent, stepState, hc]

lemma processEvent_snd (device : Caps) (seq : List Keystroke) (out : Output)
    (s : LoopState) (e : InputEvent) :
    (processEvent device seq out s e).2 =
      (if should_emit device e s.mode then some out else none) := by
  unfold processEvent
  rfl

end Helpers

section HistoryInvariant

lemma tail_eq_drop_one (l : List Keystroke) : l.tail = l.drop 1 := by
  cases l <;> rfl

lemma length_lastN (n : Nat) (l : List Keystroke) (h : n ≤ l.length) :
    (lastN n l).length = n := by
  simp [lastN]
  omega

lemma lastN_of_length_le (n : Nat) (l : List Keystroke) (h : l.length ≤ n) :
    lastN n l = l := by
  have h1 : l.length - n = 0 := by omega
  simp [lastN, h1]

lemma tail_lastN (n : Nat) (l : List Keystroke) (h1 : 1 ≤ n) (h2 : n ≤ l.length) :
    (lastN n l).tail = lastN (n - 1) l := by
  unfold lastN
  rw [tail_eq_drop_one, List.drop_drop]
  congr 1
  omega

lemma lastN_append (m : Nat) (l : List Keystroke) (k : Keystroke) (h : m ≤ l.length) :
    lastN m l ++ [k] = lastN (m + 1) (l ++ [k]) := by
  unfold lastN
  have h1 : (l ++ [k]).length - (m + 1) = l.length - m := by
    simp
  rw [h1, List.drop_append_of_le_length (by omega)]

/-- Shape of the history buffer after an arbitrary event stream, for a
non-empty toggle sequence: while fewer than `N` key events have been seen the
buffer holds exactly the key events seen so far; afterwards it holds either
the last `N` or the last `N - 1` key events (the latter can arise because
`save_stroke` evicts on a non-key event arriving at capacity). -/
lemma runState_history_inv (seq : List Keystroke) (hN : 1 ≤ seq.length)
    (m0 : Mode) (es : List InputEvent) :
    ((keyEvents es).length < seq.length ∧ (runState seq m0 es).history = keyEvents es) ∨
    (seq.length ≤ (keyEvents es).length ∧
      ((runState seq m0 es).history = lastN seq.length (keyEvents es) ∨
       (runState seq m0 es).history = lastN (seq.length - 1) (keyEvents es))) := by
  induction es using List.reverseRecOn with
  | nil =>
    left
    constructor
    · simpa [keyEvents] using hN
    · simp [runState, keyEvents]
  | append_singleton es e ih =>
    have hstep : (runState seq m0 (es ++ [e])).history
        = (save_stroke (runState seq m0 es).history e seq.length).1 := by
      rw [runState_concat, stepState_history]
    by_cases hk : e.type = EventType.key
    · have hK : keyEvents (es ++ [e]) = keyEvents es ++ [keystrokeOf e] := by
        rw [keyEvents_append, keyEvents_singleton_key e hk]
      rw [save_stroke_key_fst _ _ _ hk] at hstep
      rcases ih with ⟨hlt, hh⟩ | ⟨hge, hh | hh⟩
      · -- buffer holds all key events seen, still below capacity
        have hlen : (runState seq m0 es).history.length ≠ seq.length := by
          rw [hh]; omega
        rw [if_neg hlen, hh, ← hK] at hstep
        by_cases hfull : (keyEvents (es ++ [e])).length < seq.length
        · exact Or.inl ⟨hfull, hstep⟩
        · right
          refine ⟨by omega, Or.inl ?_⟩
          rw [hstep, lastN_of_length_le]
          have : (keyEvents (es ++ [e])).length = (keyEvents es).length + 1 := by
            simp [hK]
          omega
      · -- buffer at capacity: evict the oldest, append the new key
        have hlen : (runState seq m0 es).history.length = seq.length := by
          rw [hh, length_lastN _ _ hge]
        rw [if_pos hlen, hh, tail_lastN _ _ hN hge,
          lastN_append _ _ _ (by omega)] at hstep
        right
        constructor
        · simp [hK]; omega
        · left
          rw [hstep, hK]
          congr 1
          omega
      · -- buffer one below capacity after a non-key eviction: append
        have hlen : (runState seq m0 es).history.length ≠ seq.length := by
          rw [hh, length_lastN _ _ (by omega)]; omega
        rw [if_neg hlen, hh, lastN_append _ _ _ (by omega)] at hstep
        right
        constructor
        · simp [hK]; omega
        · left
          rw [hstep, hK]
          congr 1
          omega
    · have hK : keyEvents (es ++ [e]) = keyEvents es := by
        rw [keyEvents_append, keyEvents_singleton_not_key e hk, List.append_nil]
      rw [save_stroke_not_key_fst _ _ _ hk] at hstep
      rcases ih with ⟨hlt, hh⟩ | ⟨hge, hh | hh⟩
      · have hlen : (runState seq m0 es).history.length ≠ seq.length := by
          rw [hh]; omega
        rw [if_neg hlen, hh, ← hK] at hstep
        exact Or.inl ⟨by rw [hK]; omega, hstep⟩
      · have hlen : (runState seq m0 es).history.length = seq.length := by
          rw [hh, length_lastN _ _ hge]
        rw [if_pos hlen, hh, tail_lastN _ _ hN hge] at hstep
        right
        exact ⟨by rw [hK]; omega, Or.inr (by rw [hstep, hK])⟩
      · have hlen : (runState seq m0 es).history.length ≠ seq.length := by
          rw [hh, length_lastN _ _ (by omega)]; omega
        rw [if_neg hlen, hh] at hstep
        right
        exact ⟨by rw [hK]; omega, Or.inr (by rw [hstep, hK])⟩

/-- Shape of the history buffer right after a key event: it holds exactly the
key events seen so far when those are fewer than `N`, and exactly the last `N`
of them otherwise. -/
lemma runState_history_after_key (seq : List Keystroke) (hN : 1 ≤ seq.length)
    (m0 : Mode) (es : List InputEvent) (e : InputEvent) (hk : e.type = EventType.key) :
    (runState seq m0 (es ++ [e])).history =
      if (keyEvents (es ++ [e])).length < seq.length then keyEvents (es ++ [e])
      else lastN seq.length (keyEvents (es ++ [e])) := by
  have hstep : (runState seq m0 (es ++ [e])).history
      = (save_stroke (runState seq m0 es).history e seq.length).1 := by
    rw [runState_concat, stepState_history]
  have hK : keyEvents (es ++ [e]) = keyEvents es ++ [keystrokeOf e] := by
    rw [keyEvents_append, keyEvents_singleton_key e hk]
  have hKlen : (keyEvents (es ++ [e])).length = (keyEvents es).length + 1 := by
    simp [hK]
  rw [save_stroke_key_fst _ _ _ hk] at hstep
  rcases runState_history_inv seq hN m0 es with ⟨hlt, hh⟩ | ⟨hge, hh | hh⟩
  · have hlen : (runState seq m0 es).history.length ≠ seq.length := by
      rw [hh]; omega
    rw [if_neg hlen, hh, ← hK] at hstep
    by_cases hfull : (keyEvents (es ++ [e])).length < seq.length
    · rw [if_pos hfull]; exact hstep
    · rw [if_neg hfull, hstep, lastN_of_length_le]
      omega
  · have hlen : (runState seq m0 es).history.length = seq.length := by
      rw [hh, length_lastN _ _ hge]
    rw [if_pos hlen, hh, tail_lastN _ _ hN hge,
      lastN_append _ _ _ (by omega)] at hstep
    rw [if_neg (by omega), hstep, hK]
    congr 1
    omega
  · have hlen : (runState seq m0 es).history.length ≠ seq.length := by
      rw [hh, length_lastN _ _ (by omega)]; omega
    rw [if_neg hlen, hh, lastN_append _ _ _ (by omega)] at hstep
    rw [if_neg (by omega), hstep, hK]
    congr 1
    omega

end HistoryInvariant

section BatchLemmas

lemma runBatchAux_emission (device : Caps) (seq : List Keystroke) (out : Output)
    (es : List InputEvent) :
    ∀ (s : LoopState), ∀ t ∈ (runBatchAux device seq out s es).1,
      t.2.2 = (if should_emit device t.1 t.2.1 then some out else none) := by
  induction es with
  | nil =>
    intro s t ht
    simp [runBatchAux] at ht
  | cons e rest ih =>
    intro s t ht
    simp only [runBatchAux] at ht
    rcases List.mem_cons.mp ht with rfl | hmem
    · simpa using processEvent_snd device seq out s e
    · exact ih _ t hmem

lemma runBatchAux_state (device : Caps) (seq : List Keystroke) (out : Output)
    (es : List InputEvent) :
    ∀ s : LoopState,
      (runBatchAux device seq out s es).2 = es.foldl (stepState seq) s := by
  induction es with
  | nil => intro s; rfl
  | cons e rest ih =>
    intro s
    simp only [runBatchAux, List.foldl_cons]
    rw [ih, processEvent_fst]

/-- Justification that the per-event state semantics `runState` agrees with
the batched main loop: the state after any sequence of batches is the fold of
`stepState` over the concatenation of the batches. -/
lemma runLoop_state (manip mouse : Caps) (seq : List Keystroke)
    (bs : List (List InputEvent)) :
    ∀ s : LoopState,
      (runLoop manip mouse seq s bs).2 = bs.flatten.foldl (stepState seq) s := by
  induction bs with
  | nil => intro s; rfl
  | cons b rest ih =>
    intro s
    simp only [runLoop, List.flatten_cons, List.foldl_append]
    rw [ih]
    congr 1
    exact runBatchAux_state _ _ _ _ _

end BatchLemmas

section ConfigLemmas

lemma prepare_keys_error_mem (f : String → Option Nat) :
    ∀ (l : List String) (msg : String),
      prepare_keys f l = Except.error msg → ∃ s ∈ l, f s = none ∧ msg = errMsg s := by
  intro l
  induction l with
  | nil => intro msg h; simp [prepare_keys] at h
  | cons a t ih =>
    intro msg h
    cases hf : f a with
    | some c =>
      rw [prepare_keys, hf] at h
      cases hr : prepare_keys f t with
      | ok cs => rw [hr] at h; simp [Except.map] at h
      | error m =>
        rw [hr] at h
        simp [Except.map] at h
        obtain ⟨s, hs, h1, h2⟩ := ih m hr
        exact ⟨s, List.mem_cons_of_mem _ hs, h1, h.symm ▸ h2⟩
    | none =>
      rw [prepare_keys, hf] at h
      simp at h
      exact ⟨a, List.mem_cons_self a t, hf, h.symm⟩

lemma prepare_axes_error_mem (f : String → Option Nat) :
    ∀ (l : List String) (msg : String),
      prepare_axes f l = Except.error msg → ∃ s ∈ l, f s = none ∧ msg = errMsg s := by
  intro l
  induction l with
  | nil => intro msg h; simp [prepare_axes] at h
  | cons a t ih =>
    intro msg h
    cases hf : f a with
    | some c =>
      rw [prepare_axes, hf] at h
      cases hr : prepare_axes f t with
      | ok cs => rw [hr] at h; simp [Except.map] at h
      | error m =>
        rw [hr] at h
        simp [Except.map] at h
        obtain ⟨s, hs, h1, h2⟩ := ih m hr
        exact ⟨s, List.mem_cons_of_mem _ hs, h1, h.symm ▸ h2⟩
    | none =>
      rw [prepare_axes, hf] at h
      simp at h
      exact ⟨a, List.mem_cons_self a t, hf, h.symm⟩

lemma toggle_keystrokes_isSome_iff (f : String → Option Nat) :
    ∀ ts : List (String × Nat),
      (toggle_sequence_to_keystrokes f ts).isSome = true ↔
        ∀ p ∈ ts, (f p.1).isSome = true := by
  intro ts
  induction ts with
  | nil => simp [toggle_sequence_to_keystrokes]
  | cons p t ih =>
    obtain ⟨k, v⟩ := p
    cases hf : f k with
    | some c => simp [toggle_sequence_to_keystrokes, hf, ih]
    | none => simp [toggle_sequence_to_keystrokes, hf]

lemma toggle_keystrokes_values (f : String → Option Nat) :
    ∀ (ts : List (String × Nat)) (ks : List Keystroke),
      toggle_sequence_to_keystrokes f ts = some ks →
        ks.map Keystroke.value = ts.map fun p => Int.ofNat p.2 := by
  intro ts
  induction ts with
  | nil =>
    intro ks h
    simp [toggle_sequence_to_keystrokes] at h
    subst h
    rfl
  | cons p t ih =>
    intro ks h
    obtain ⟨k, v⟩ := p
    cases hf : f k with
    | some c =>
      rw [toggle_sequence_to_keystrokes, hf] at h
      cases hr : toggle_sequence_to_keystrokes f t with
      | none => rw [hr] at h; simp at h
      | some ls =>
        rw [hr] at h
        simp only [Option.map] at h
        injection h with h
        subst h
        simp only [List.map_cons]
        rw [ih ls hr]
    | none =>
      rw [toggle_sequence_to_keystrokes, hf] at h
      simp at h

end ConfigLemmas

section C7andC8

/-- C7: `should_toggle` returns `true` if and only if the buffer has exactly
the same length as the sequence and at every position the buffer's Keystroke
is structurally equal to the sequence's Keystroke at that position; in
particular a buffer shorter than the sequence never matches. -/
theorem C7_theorem (history sequence : List Keystroke) :
    (should_toggle history sequence = true ↔
      (history.length = sequence.length ∧
        ∀ (i : Nat) (h1 : i < history.length) (h2 : i < sequence.length),
          history.get ⟨i, h1⟩ = sequence.get ⟨i, h2⟩)) ∧
    (history.length < sequence.length → should_toggle history sequence = false) := by
  constructor
  · rw [should_toggle_iff_eq]
    exact List.ext_get_iff
  · intro hlt
    cases hst : should_toggle history sequence
    · rfl
    · exfalso
      have hEq := (should_toggle_iff_eq history sequence).mp hst
      have := congrArg List.length hEq
      omega

/-- Witness for C7 at a concrete short buffer. -/
theorem C7_witness : should_toggle [] [⟨30, 1⟩] = false :=
  (C7_theorem [] [⟨30, 1⟩]).2 (by decide)

/-- C8: `should_emit` returns `true` unconditionally in Manipulator mode; in
Mouse mode it returns `true` for a key event iff the key code is in the key
capability set, for a relative-axis event iff the axis code is in the axis
capability set, and unconditionally for events of any other category. -/
theorem C8_theorem (device : Caps) (e : InputEvent) :
    should_emit device e Mode.Manipulator = true ∧
    (e.type = EventType.key →
      (should_emit device e Mode.Mouse = true ↔ e.code ∈ device.keys)) ∧
    (e.type = EventType.relAxis →
      (should_emit device e Mode.Mouse = true ↔ e.code ∈ device.axes)) ∧
    (∀ tag, e.type = EventType.other tag → should_emit device e Mode.Mouse = true) := by
  refine ⟨by simp [should_emit], ?_, ?_, ?_⟩
  · intro hk; simp [should_emit, hk]
  · intro ha; simp [should_emit, ha]
  · intro tag ht; simp [should_emit, ht]

/-- Witness for C8 at concrete events of each category. -/
theorem C8_witness :
    (should_emit ⟨[30], [8]⟩ ⟨EventType.key, 30, 1⟩ Mode.Mouse = true ↔
      30 ∈ [30]) ∧
    (should_emit ⟨[30], [8]⟩ ⟨EventType.relAxis, 9, -1⟩ Mode.Mouse = true ↔
      9 ∈ [8]) ∧
    should_emit ⟨[30], [8]⟩ ⟨EventType.other 0, 0, 0⟩ Mode.Mouse = true :=
  ⟨(C8_theorem ⟨[30], [8]⟩ ⟨EventType.key, 30, 1⟩).2.1 rfl,
   (C8_theorem ⟨[30], [8]⟩ ⟨EventType.relAxis, 9, -1⟩).2.2.1 rfl,
   (C8_theorem ⟨[30], [8]⟩ ⟨EventType.other 0, 0, 0⟩).2.2.2 0 rfl⟩

end C7andC8

section C2

/-- C2 counterexample: a non-key event arriving while the buffer is at
capacity does NOT leave the buffer untouched — `save_stroke` performs the
capacity check and the `pop_front` before examining the event's kind, so the
oldest entry is evicted (and nothing appended). The claim's non-key clause
fails at this input. -/
theorem C2_counterexample :
    (save_stroke [⟨30, 1⟩] ⟨EventType.other 0, 0, 0⟩ 1).1 ≠ [⟨30, 1⟩] ∧
    (save_stroke [⟨30, 1⟩] ⟨EventType.other 0, 0, 0⟩ 1).2 = false := by
  decide

/-- C2 (amended): for a key event `save_stroke` evicts the oldest entry
exactly when the buffer is at capacity, appends the event's Keystroke and
returns `true`; for a non-key event it adds nothing and returns `false`, but
it also evicts the oldest entry when the buffer is at capacity (the eviction
precedes the event-category check). -/
theorem C2_theorem (h : List Keystroke) (e : InputEvent) (n : Nat) :
    (e.type = EventType.key →
      save_stroke h e n =
        ((if h.length = n then h.drop 1 else h) ++ [keystrokeOf e], true)) ∧
    (e.type ≠ EventType.key →
      save_stroke h e n = ((if h.length = n then h.drop 1 else h), false)) := by
  constructor
  · intro hk
    rw [save_stroke_key h e n hk, tail_eq_drop_one]
  · intro hk
    rw [save_stroke_not_key h e n hk, tail_eq_drop_one]

/-- Witness for C2 at a concrete key event and a concrete non-key event. -/
theorem C2_witness :
    ((⟨EventType.key, 30, 1⟩ : InputEvent).type = EventType.key ∧
      save_stroke [⟨10, 0⟩] ⟨EventType.key, 30, 1⟩ 1 = ([⟨30, 1⟩], true)) ∧
    ((⟨EventType.other 5, 3, 0⟩ : InputEvent).type ≠ EventType.key ∧
      save_stroke [⟨10, 0⟩] ⟨EventType.other 5, 3, 0⟩ 2 = ([⟨10, 0⟩], false)) :=
  ⟨⟨rfl, (C2_theorem [⟨10, 0⟩] ⟨EventType.key, 30, 1⟩ 1).1 rfl⟩,
   ⟨by decide, (C2_theorem [⟨10, 0⟩] ⟨EventType.other 5, 3, 0⟩ 2).2 (by decide)⟩⟩

end C2

section C4C6

/-- C4: with a non-empty toggle sequence, the mode flips after processing an
event if and only if that event is a key event and the most recently observed
`N` key events, in order, equal the Toggle Sequence; while fewer than `N` key
events have been observed, no flip ever occurs. -/
theorem C4_theorem (seq : List Keystroke) (hN : seq ≠ []) (m0 : Mode)
    (es : List InputEvent) (e : InputEvent) :
    ((runState seq m0 (es ++ [e])).mode ≠ (runState seq m0 es).mode ↔
      e.type = EventType.key ∧
        lastN seq.length (keyEvents (es ++ [e])) = seq) ∧
    ((keyEvents (es ++ [e])).length < seq.length →
      (runState seq m0 (es ++ [e])).mode = (runState seq m0 es).mode) := by
  have hN1 : 1 ≤ seq.length := List.length_pos.mpr hN
  have hhist : (runState seq m0 (es ++ [e])).history
      = (save_stroke (runState seq m0 es).history e seq.length).1 := by
    rw [runState_concat, stepState_history]
  have hmode : ((runState seq m0 (es ++ [e])).mode ≠ (runState seq m0 es).mode ↔
      ((save_stroke (runState seq m0 es).history e seq.length).2
        && should_toggle (save_stroke (runState seq m0 es).history e seq.length).1 seq)
        = true) := by
    rw [runState_concat]
    exact stepState_mode_ne_iff seq (runState seq m0 es) e
  by_cases hk : e.type = EventType.key
  · have hsnd := save_stroke_key_snd (runState seq m0 es).history e seq.length hk
    have hKlen : (keyEvents (es ++ [e])).length = (keyEvents es).length + 1 := by
      rw [keyEvents_append, keyEvents_singleton_key e hk]
      simp
    have hafter := runState_history_after_key seq hN1 m0 es e hk
    constructor
    · rw [hmode, hsnd, Bool.true_and, should_toggle_iff_eq, ← hhist]
      by_cases hfull : (keyEvents (es ++ [e])).length < seq.length
      · rw [if_pos hfull] at hafter
        constructor
        · intro hEq
          exfalso
          rw [hafter] at hEq
          have := congrArg List.length hEq
          omega
        · rintro ⟨-, hEq⟩
          exfalso
          rw [lastN_of_length_le _ _ (by omega)] at hEq
          have := congrArg List.length hEq
          omega
      · rw [if_neg hfull] at hafter
        rw [hafter]
        exact ⟨fun hEq => ⟨hk, hEq⟩, fun hp => hp.2⟩
    · intro hlt
      by_contra hne
      have hcond := hmode.mp hne
      rw [hsnd, Bool.true_and, should_toggle_iff_eq, ← hhist] at hcond
      rw [if_pos hlt] at hafter
      rw [hafter] at hcond
      have := congrArg List.length hcond
      omega
  · have hsnd := save_stroke_not_key_snd (runState seq m0 es).history e seq.length hk
    constructor
    · rw [hmode, hsnd, Bool.false_and]
      simp [hk]
    · intro _
      by_contra hne
      have hcond := hmode.mp hne
      rw [hsnd, Bool.false_and] at hcond
      exact absurd hcond (by decide)

/-- Witness for C4 at a concrete one-key toggle sequence: the single matching
key event flips the mode. -/
theorem C4_witness :
    ([⟨30, 1⟩] : List Keystroke) ≠ [] ∧
    (((runState [⟨30, 1⟩] Mode.Mouse ([] ++ [⟨EventType.key, 30, 1⟩])).mode ≠
        (runState [⟨30, 1⟩] Mode.Mouse []).mode ↔
      (⟨EventType.key, 30, 1⟩ : InputEvent).type = EventType.key ∧
        lastN ([⟨30, 1⟩] : List Keystroke).length
          (keyEvents ([] ++ [⟨EventType.key, 30, 1⟩])) = [⟨30, 1⟩]) ∧
     ((keyEvents ([] ++ [⟨EventType.key, 30, 1⟩])).length <
        ([⟨30, 1⟩] : List Keystroke).length →
      (runState [⟨30, 1⟩] Mode.Mouse ([] ++ [⟨EventType.key, 30, 1⟩])).mode =
        (runState [⟨30, 1⟩] Mode.Mouse []).mode)) :=
  ⟨by decide, C4_theorem [⟨30, 1⟩] (by decide) Mode.Mouse [] ⟨EventType.key, 30, 1⟩⟩

/-- C6: with a non-empty toggle sequence of length `N`, the history buffer's
length is at most `N` at every point during processing (the state after every
prefix of the fed events). -/
theorem C6_theorem (seq : List Keystroke) (hN : seq ≠ []) (m0 : Mode)
    (es : List InputEvent) (k : Nat) :
    ((runState seq m0 (es.take k)).history).length ≤ seq.length := by
  have hN1 : 1 ≤ seq.length := List.length_pos.mpr hN
  rcases runState_history_inv seq hN1 m0 (es.take k) with ⟨hlt, hh⟩ | ⟨hge, hh | hh⟩
  · rw [hh]; omega
  · rw [hh, length_lastN _ _ hge]
  · rw [hh, length_lastN _ _ (by omega)]; omega

/-- Witness for C6 at a concrete stream prefix. -/
theorem C6_witness :
    ([⟨30, 1⟩] : List Keystroke) ≠ [] ∧
    ((runState [⟨30, 1⟩] Mode.Mouse
        ([⟨EventType.key, 30, 1⟩, ⟨EventType.key, 48, 1⟩].take 2)).history).length ≤
      ([⟨30, 1⟩] : List Keystroke).length :=
  ⟨by decide,
   C6_theorem [⟨30, 1⟩] (by decide) Mode.Mouse
     [⟨EventType.key, 30, 1⟩, ⟨EventType.key, 48, 1⟩] 2⟩

end C4C6

section C9

lemma tail_if_self (l : List Keystroke) : (if l.length = 0 then l.tail else l) = l := by
  cases l with
  | nil => simp
  | cons a t => simp

lemma runState_empty_seq (m0 : Mode) (es : List InputEvent) :
    (runState [] m0 es).history = keyEvents es ∧ (runState [] m0 es).mode = m0 := by
  induction es using List.reverseRecOn with
  | nil => exact ⟨rfl, rfl⟩
  | append_singleton es e ih =>
    constructor
    · rw [runState_concat, stepState_history]
      by_cases hk : e.type = EventType.key
      · rw [save_stroke_key_fst _ _ _ hk, keyEvents_append,
          keyEvents_singleton_key e hk, ih.1]
        simp only [List.length_nil]
        rw [tail_if_self]
      · rw [save_stroke_not_key_fst _ _ _ hk, keyEvents_append,
          keyEvents_singleton_not_key e hk, List.append_nil, ih.1]
        simp only [List.length_nil]
        rw [tail_if_self]
    · rw [runState_concat]
      unfold stepState
      split
      · rename_i hc
        exfalso
        rw [Bool.and_eq_true] at hc
        obtain ⟨h1, h2⟩ := hc
        by_cases hk : e.type = EventType.key
        · rw [save_stroke_key_fst _ _ _ hk, should_toggle_iff_eq] at h2
          exact absurd h2 (by simp)
        · rw [save_stroke_not_key_snd _ _ _ hk] at h1
          exact absurd h1 (by decide)
      · simpa using ih.2

/-- C9: with an empty toggle sequence the history buffer holds exactly the
key events seen so far (so it grows by one on every key event, with no
eviction, and is non-empty forever after the first key event),
`should_toggle` never returns `true` after a key event, and the mode never
changes from the configured default. -/
theorem C9_theorem (m0 : Mode) (es : List InputEvent) :
    (runState [] m0 es).history = keyEvents es ∧
    (runState [] m0 es).mode = m0 ∧
    (∀ e : InputEvent, e.type = EventType.key →
      should_toggle (runState [] m0 (es ++ [e])).history [] = false) := by
  refine ⟨(runState_empty_seq m0 es).1, (runState_empty_seq m0 es).2, ?_⟩
  intro e hk
  cases hst : should_toggle (runState [] m0 (es ++ [e])).history []
  · rfl
  · exfalso
    have hEq := (should_toggle_iff_eq _ _).mp hst
    rw [(runState_empty_seq m0 (es ++ [e])).1, keyEvents_append,
      keyEvents_singleton_key e hk] at hEq
    exact absurd hEq (by simp)

/-- Witness for C9 at a concrete stream. -/
theorem C9_witness :
    should_toggle (runState [] Mode.Manipulator
        ([⟨EventType.other 0, 0, 0⟩] ++ [⟨EventType.key, 30, 1⟩])).history [] = false :=
  (C9_theorem Mode.Manipulator [⟨EventType.other 0, 0, 0⟩]).2.2
    ⟨EventType.key, 30, 1⟩ rfl

end C9

section C1

/-- C1 counterexample: the output device is selected once per fetched batch
(lines 225-228), before the inner event loop, so after a mid-batch mode flip
the remaining events of the batch are emitted to the output of the old mode.
Here the toggle sequence is KEY_A, KEY_B (codes 30, 48), the mouse output
supports only key 30, and one batch holds key events 30, 48, 46: the third
event is processed with mode Manipulator (the flip was consumed by its
`should_emit` decision) yet is emitted to the mouse output, i.e. to the
inactive output. -/
theorem C1_counterexample :
    ((runLoop ⟨[], []⟩ ⟨[30], []⟩ [⟨30, 1⟩, ⟨48, 1⟩] ⟨Mode.Mouse, []⟩
        [[⟨EventType.key, 30, 1⟩, ⟨EventType.key, 48, 1⟩,
          ⟨EventType.key, 46, 1⟩]]).1.all emittedToActive) = false := by
  decide

/-- C1 (amended): if the Event Router indicates forwarding — evaluated with
the mode in effect at the start of the event's processing and the capability
sets of the batch output — the event is emitted to the Virtual Output
corresponding to the mode in effect at the start of the current batch (not
necessarily at the start of the event's processing); a mode flip is consumed
by the forwarding decision of the very next event, but by the emission
target only from the next batch on. -/
theorem C1_theorem (manip mouse : Caps) (seq : List Keystroke)
    (s : LoopState) (events : List InputEvent) :
    ∀ t ∈ (runBatch manip mouse seq s events).1,
      t.2.2 = (if should_emit (capsFor manip mouse (outputFor s.mode)) t.1 t.2.1
               then some (outputFor s.mode) else none) := by
  intro t ht
  exact runBatchAux_emission _ _ _ events s t ht

/-- Witness for C1 at a concrete one-event batch. -/
theorem C1_witness :
    ((⟨EventType.key, 30, 1⟩, Mode.Mouse, some Output.mouse) :
        InputEvent × Mode × Option Output).2.2 =
      (if should_emit (capsFor ⟨[], []⟩ ⟨[30], []⟩ (outputFor Mode.Mouse))
            ⟨EventType.key, 30, 1⟩ Mode.Mouse
       then some (outputFor Mode.Mouse) else none) :=
  C1_theorem ⟨[], []⟩ ⟨[30], []⟩ [] ⟨Mode.Mouse, []⟩ [⟨EventType.key, 30, 1⟩]
    (⟨EventType.key, 30, 1⟩, Mode.Mouse, some Output.mouse) (by decide)

end C1

section C5

/-- C5 counterexample: with toggle sequence KEY_A, KEY_B (codes 30, 48) and
one batch holding the key events 30, 48, 30, 48, the fourth event completes a
toggle match under pre-flip mode Manipulator (the batch's second flip), yet
its emission goes to the mouse output — the output selected at batch start —
and not to the pre-flip mode's (manipulator) output. -/
theorem C5_counterexample :
    (runBatch ⟨[], []⟩ ⟨[30], []⟩ [⟨30, 1⟩, ⟨48, 1⟩] ⟨Mode.Mouse, []⟩
        [⟨EventType.key, 30, 1⟩, ⟨EventType.key, 48, 1⟩,
         ⟨EventType.key, 30, 1⟩, ⟨EventType.key, 48, 1⟩]).2.mode = Mode.Mouse ∧
    (runBatch ⟨[], []⟩ ⟨[30], []⟩ [⟨30, 1⟩, ⟨48, 1⟩] ⟨Mode.Mouse, []⟩
        [⟨EventType.key, 30, 1⟩, ⟨EventType.key, 48, 1⟩,
         ⟨EventType.key, 30, 1⟩, ⟨EventType.key, 48, 1⟩]).1 =
      [(⟨EventType.key, 30, 1⟩, Mode.Mouse, some Output.mouse),
       (⟨EventType.key, 48, 1⟩, Mode.Mouse, none),
       (⟨EventType.key, 30, 1⟩, Mode.Manipulator, some Output.mouse),
       (⟨EventType.key, 48, 1⟩, Mode.Manipulator, some Output.mouse)] ∧
    outputFor Mode.Manipulator ≠ Output.mouse := by
  decide

/-- C5 (amended): for every event that completes a toggle match, the
forwarding decision is taken under the mode in effect before the flip, and
the flip is visible only in the state seen by subsequent events; the emission
target, however, is the output selected at the start of the current batch,
which corresponds to the pre-flip mode only when no earlier flip occurred in
the same batch. -/
theorem C5_theorem (device : Caps) (seq : List Keystroke) (out : Output)
    (s : LoopState) (e : InputEvent)
    (hflip : (processEvent device seq out s e).1.mode ≠ s.mode) :
    (processEvent device seq out s e).2 =
      (if should_emit device e s.mode then some out else none) ∧
    (processEvent device seq out s e).1.mode = flipMode s.mode := by
  refine ⟨processEvent_snd device seq out s e, ?_⟩
  rw [processEvent_fst] at hflip ⊢
  have hc := (stepState_mode_ne_iff seq s e).mp hflip
  unfold stepState
  rw [if_pos hc]

/-- Witness for C5 at a concrete toggle-completing event. -/
theorem C5_witness :
    (processEvent ⟨[30], []⟩ [⟨30, 1⟩] Output.mouse ⟨Mode.Mouse, []⟩
        ⟨EventType.key, 30, 1⟩).1.mode ≠ Mode.Mouse ∧
    ((processEvent ⟨[30], []⟩ [⟨30, 1⟩] Output.mouse ⟨Mode.Mouse, []⟩
        ⟨EventType.key, 30, 1⟩).2 =
      (if should_emit ⟨[30], []⟩ ⟨EventType.key, 30, 1⟩ Mode.Mouse
       then some Output.mouse else none) ∧
     (processEvent ⟨[30], []⟩ [⟨30, 1⟩] Output.mouse ⟨Mode.Mouse, []⟩
        ⟨EventType.key, 30, 1⟩).1.mode = flipMode Mode.Mouse) :=
  ⟨by decide,
   C5_theorem ⟨[30], []⟩ [⟨30, 1⟩] Output.mouse ⟨Mode.Mouse, []⟩
     ⟨EventType.key, 30, 1⟩ (by decide)⟩

end C5

section C3

/-- C3 counterexample: with a concrete name table that does not recognize
KEY_FOO and a configuration whose `virtual_mouse_keys` is [KEY_FOO], the
startup trace shows the physical device being found and grabbed and the
manipulator output created BEFORE the configuration error is raised — the
claim's requirement that the failure occur before any device is created or
touched fails on this input. -/
theorem C3_counterexample :
    (startupTrace kcA acNone cfgBadKey).take 4 =
      [StartupEffect.findDevice, StartupEffect.findDevice, StartupEffect.grabDevice,
       StartupEffect.createManipulator] ∧
    StartupEffect.configError (errMsg "KEY_FOO") ∈ startupTrace kcA acNone cfgBadKey := by
  decide

/-- C3 (amended): an unrecognized name in `virtual_mouse_keys` or
`virtual_mouse_axes` fails setup with a descriptive error naming an offending
symbol, before the mouse output is created and before the event loop starts,
but only after the physical device has been found and grabbed and the
manipulator output created; an unrecognized name in `toggle_sequence` aborts
by panic (not a descriptive error), after both virtual outputs are created
and before the event loop starts. -/
theorem C3_theorem (keyCode axisCode : String → Option Nat) (cfg : Config) :
    (∀ msg, prepare_keys keyCode cfg.virtual_mouse_keys = Except.error msg →
      (∃ s ∈ cfg.virtual_mouse_keys, keyCode s = none ∧ msg = errMsg s) ∧
      startupTrace keyCode axisCode cfg =
        [StartupEffect.findDevice, StartupEffect.findDevice, StartupEffect.grabDevice,
         StartupEffect.createManipulator, StartupEffect.configError msg]) ∧
    (∀ ks msg, prepare_keys keyCode cfg.virtual_mouse_keys = Except.ok ks →
      prepare_axes axisCode cfg.virtual_mouse_axes = Except.error msg →
      (∃ s ∈ cfg.virtual_mouse_axes, axisCode s = none ∧ msg = errMsg s) ∧
      startupTrace keyCode axisCode cfg =
        [StartupEffect.findDevice, StartupEffect.findDevice, StartupEffect.grabDevice,
         StartupEffect.createManipulator, StartupEffect.configError msg]) ∧
    (∀ ks axs, prepare_keys keyCode cfg.virtual_mouse_keys = Except.ok ks →
      prepare_axes axisCode cfg.virtual_mouse_axes = Except.ok axs →
      toggle_sequence_to_keystrokes keyCode cfg.toggle_sequence = none →
      startupTrace keyCode axisCode cfg =
        [StartupEffect.findDevice, StartupEffect.findDevice, StartupEffect.grabDevice,
         StartupEffect.createManipulator, StartupEffect.createMouse,
         StartupEffect.panicUnwrap]) := by
  refine ⟨?_, ?_, ?_⟩
  · intro msg h
    exact ⟨prepare_keys_error_mem keyCode _ msg h, by simp [startupTrace, h]⟩
  · intro ks msg h1 h2
    exact ⟨prepare_axes_error_mem axisCode _ msg h2, by simp [startupTrace, h1, h2]⟩
  · intro ks axs h1 h2 h3
    simp [startupTrace, h1, h2, h3]

/-- Witness for C3 at the concrete failing configuration. -/
theorem C3_witness :
    (∃ s ∈ cfgBadKey.virtual_mouse_keys, kcA s = none ∧
      errMsg "KEY_FOO" = errMsg s) ∧
    startupTrace kcA acNone cfgBadKey =
      [StartupEffect.findDevice, StartupEffect.findDevice, StartupEffect.grabDevice,
       StartupEffect.createManipulator, StartupEffect.configError (errMsg "KEY_FOO")] :=
  (C3_theorem kcA acNone cfgBadKey).1 (errMsg "KEY_FOO") (by rfl)

end C3

section C10

/-- C10: configuration load never fails because of a `toggle_sequence` value
field — `toggle_sequence_to_keystrokes` succeeds exactly when every symbolic
key name is recognized, irrespective of the values, and it converts each
`u16` value unchanged to the Keystroke's `i32` value. -/
theorem C10_theorem (keyCode : String → Option Nat) (ts : List (String × Nat)) :
    ((toggle_sequence_to_keystrokes keyCode ts).isSome = true ↔
      ∀ p ∈ ts, (keyCode p.1).isSome = true) ∧
    (∀ ks, toggle_sequence_to_keystrokes keyCode ts = some ks →
      ks.map Keystroke.value = ts.map fun p => Int.ofNat p.2) :=
  ⟨toggle_keystrokes_isSome_iff keyCode ts, toggle_keystrokes_values keyCode ts⟩

/-- Witness for C10 at a concrete sequence whose value 7 lies outside
the press/release/repeat range. -/
theorem C10_witness :
    ((toggle_sequence_to_keystrokes kcA [("KEY_A", 7)]).isSome = true ↔
      ∀ p ∈ [("KEY_A", 7)], (kcA p.1).isSome = true) ∧
    ([⟨30, 7⟩] : List Keystroke).map Keystroke.value =
      [("KEY_A", 7)].map fun p => Int.ofNat p.2 :=
  ⟨(C10_theorem kcA [("KEY_A", 7)]).1,
   (C10_theorem kcA [("KEY_A", 7)]).2 [⟨30, 7⟩] (by rfl)⟩

end C10
